import Mathlib

/-
Verification of the done-it todo application's persistence and
authorization contract.

The development shallowly embeds the TypeScript source:
- `src/lib/db.ts` — the Persistence Layer: the `Todo`/`User` record types,
  the store-level CRUD operations modelled as pure functions over a
  `List Todo` store, and (separately, in namespace `DbExc`) the
  exception-flow structure of every operation, with the backend call
  abstracted as its outcome (`Except` error = a thrown storage error).
- `src/app/api/todos/route.ts` — the `POST` (create) and list handlers.
- `src/app/api/todos/[id]/route.ts` — the `PATCH` (update) and `DELETE`
  handlers, including payload filtering, the `completed_at` derivation and
  the ownership checks.
- JavaScript platform semantics used by those handlers (`parseInt`,
  `String.prototype.trim`, truthiness) are embedded as `parseIntJs`,
  `jsTrim`, `jsFalsy` over a small dynamic value type `JsVal`.

Time stamps (`new Date().toISOString()`, SQL `CURRENT_TIMESTAMP`) are
abstracted as an explicit `now : String` parameter.  Record ids produced
by the database (`SERIAL` / `AUTOINCREMENT`) are abstracted as an explicit
`newId` parameter to `createTodo`.
-/

namespace DoneIt

/-- Dynamic JSON-ish values, as they arrive in a request payload. -/
inductive JsVal where
  | str (s : String)
  | num (n : Int)
  | jbool (b : Bool)
  | jnull
deriving DecidableEq, Repr

/-- JavaScript truthiness: `""`, `0`, `false` and `null` are falsy. -/
def jsFalsy : JsVal → Bool
  | .str s => s == ""
  | .num n => n == 0
  | .jbool b => !b
  | .jnull => true

/-- Whitespace characters recognized by JavaScript `trim` / `parseInt`
(the common ones; exotic Unicode space classes are not modelled). -/
def isJsWs (c : Char) : Bool :=
  c == ' ' || c == '\t' || c == '\n' || c == '\r' || c == '\x0b' || c == '\x0c'

/-- Model of JavaScript `String.prototype.trim`: drop leading and trailing
whitespace. -/
def jsTrim (s : String) : String :=
  String.mk (((s.data.dropWhile isJsWs).reverse.dropWhile isJsWs).reverse)

/-- Decimal digit value, used by the radix-10 branch of `parseInt`. -/
def decDigitVal (c : Char) : Option Nat :=
  if '0' ≤ c ∧ c ≤ '9' then some (c.toNat - '0'.toNat) else none

/-- Hexadecimal digit value, used by the `0x` branch of `parseInt`. -/
def hexDigitVal (c : Char) : Option Nat :=
  if '0' ≤ c ∧ c ≤ '9' then some (c.toNat - '0'.toNat)
  else if 'a' ≤ c ∧ c ≤ 'f' then some (c.toNat - 'a'.toNat + 10)
  else if 'A' ≤ c ∧ c ≤ 'F' then some (c.toNat - 'A'.toNat + 10)
  else none

/-- Longest prefix of digit values under a digit decoder. -/
def takeDigits (dv : Char → Option Nat) : List Char → List Nat
  | [] => []
  | c :: cs =>
    match dv c with
    | some d => d :: takeDigits dv cs
    | none => []

/-- Model of JavaScript `parseInt(s)` with no radix argument: skip leading
whitespace, read an optional sign, auto-detect a `0x`/`0X` hexadecimal
prefix, then take the longest digit prefix; `none` models `NaN`. -/
def parseIntJs (s : String) : Option Int :=
  let cs := s.data.dropWhile isJsWs
  let signed : Int × List Char :=
    match cs with
    | '-' :: r => (-1, r)
    | '+' :: r => (1, r)
    | _ => (1, cs)
  let based : Nat × List Char :=
    match signed.2 with
    | '0' :: 'x' :: r => (16, r)
    | '0' :: 'X' :: r => (16, r)
    | _ => (10, signed.2)
  let dv := if based.1 == 16 then hexDigitVal else decDigitVal
  let ds := takeDigits dv based.2
  if ds.isEmpty then none
  else some (signed.1 * (ds.foldl (fun acc d => acc * based.1 + d) 0 : Nat))

/-- The `User` row type from `src/lib/db.ts`. -/
structure User where
  id : Int
  username : String
  password_hash : String
  created_at : String
deriving DecidableEq, Repr

/-- The `Todo` row type from `src/lib/db.ts`. -/
structure Todo where
  id : Int
  user_id : Int
  title : String
  description : Option String
  priority : String
  category : Option String
  completed : Bool
  completed_at : Option String
  due_date : Option String
  created_at : String
  updated_at : String
deriving DecidableEq, Repr

/-- Model of `getTodoById` from `src/lib/db.ts`:
`SELECT * FROM todos WHERE id = ?` over the store. -/
def getTodoById (store : List Todo) (id : Int) : Option Todo :=
  store.find? (fun t => t.id == id)

/-- Model of `getTodosByUserId` from `src/lib/db.ts`:
`SELECT * FROM todos WHERE user_id = ?` (ordering abstracted away;
the claims under verification do not concern it). -/
def getTodosByUserId (store : List Todo) (userId : Int) : List Todo :=
  store.filter (fun t => t.user_id == userId)

/-- Model of `deleteTodo` from `src/lib/db.ts`:
`DELETE FROM todos WHERE id = ?`; the Bool is `changes > 0`. -/
def deleteTodo (store : List Todo) (id : Int) : Bool × List Todo :=
  (store.any (fun t => t.id == id), store.filter (fun t => !(t.id == id)))

/-- Model of `createTodo` from `src/lib/db.ts`: `INSERT INTO todos
(user_id, title, description, priority, category, due_date)`; the schema
defaults supply `completed = false`, `completed_at = NULL` and
`created_at = updated_at = CURRENT_TIMESTAMP`.  The freshly assigned row
id is the explicit `newId`; the returned record is the inserted row
(`RETURNING *` / `getTodoById(lastInsertRowid)`). -/
def createTodo (store : List Todo) (newId : Int) (userId : Int) (title : String)
    (description : Option String) (priority : String) (category : Option String)
    (dueDate : Option String) (now : String) : Todo × List Todo :=
  let t : Todo :=
    { id := newId, user_id := userId, title := title, description := description,
      priority := priority, category := category, completed := false,
      completed_at := none, due_date := dueDate, created_at := now, updated_at := now }
  (t, store ++ [t])

/-- Applying one `key = value` SET clause of the dynamically built UPDATE
statement in `updateTodo` (`src/lib/db.ts`) to a row.  Keys outside the
mutable columns, or values outside the declared column types (storable
only under SQLite's dynamic typing), are outside this typed row model and
yield `none`; no verified claim depends on that branch. -/
def applyEntry (t : Todo) : String × JsVal → Option Todo
  | ("title", .str s) => some { t with title := s }
  | ("description", .str s) => some { t with description := some s }
  | ("description", .jnull) => some { t with description := none }
  | ("priority", .str s) => some { t with priority := s }
  | ("category", .str s) => some { t with category := some s }
  | ("category", .jnull) => some { t with category := none }
  | ("completed", .jbool b) => some { t with completed := b }
  | ("completed_at", .str s) => some { t with completed_at := some s }
  | ("completed_at", .jnull) => some { t with completed_at := none }
  | ("due_date", .str s) => some { t with due_date := some s }
  | ("due_date", .jnull) => some { t with due_date := none }
  | _ => none

/-- Applying every SET clause of the dynamic UPDATE in order. -/
def applyEntries (t : Todo) (entries : List (String × JsVal)) : Option Todo :=
  entries.foldlM applyEntry t

/-- Model of `updateTodo` from `src/lib/db.ts`.  `entries` is
`Object.entries(updates)`: the dynamically built field list.  An empty
list short-circuits to `getTodoById` with the store untouched; otherwise
the UPDATE statement sets exactly the given fields plus
`updated_at = CURRENT_TIMESTAMP` on the row matching `id`, and the
post-update row is returned (`RETURNING *` / re-read). -/
def updateTodo (store : List Todo) (id : Int) (entries : List (String × JsVal))
    (now : String) : Option Todo × List Todo :=
  if entries.isEmpty then (getTodoById store id, store)
  else
    match getTodoById store id with
    | none => (none, store)
    | some t =>
      match applyEntries t entries with
      | none => (none, store)
      | some t1 =>
        let t2 := { t1 with updated_at := now }
        (some t2, store.map (fun x => if x.id == id then t2 else x))

/-- Model of JavaScript `Math.round`: round half toward positive
infinity. -/
def jsRound (q : ℚ) : ℤ := ⌊q + 1 / 2⌋

/-- The stats record returned by `getCompletedTodoStats`. -/
structure TodoStats where
  total : Nat
  completed : Nat
  completionRate : Int
deriving DecidableEq, Repr

/-- Model of `getCompletedTodoStats` from `src/lib/db.ts`:
`COUNT(*)` and `SUM(CASE WHEN completed ...)` over the user's todos, with
`completionRate = Math.round((completed / total) * 100)` guarded by
`total > 0 ? ... : 0`. -/
def getCompletedTodoStats (store : List Todo) (userId : Int) : TodoStats :=
  let todos := store.filter (fun t => t.user_id == userId)
  let total := todos.length
  let completed := (todos.filter (fun t => t.completed)).length
  { total := total, completed := completed,
    completionRate :=
      if 0 < total then jsRound ((completed : ℚ) / (total : ℚ) * 100) else 0 }

/-- The session shape from `src/lib/session.ts` (`SessionData`). -/
structure SessionData where
  userId : Option Int := none
  username : Option String := none
  isLoggedIn : Bool := false
deriving DecidableEq, Repr

/-- The handlers' guard `!session.isLoggedIn || !session.userId`:
`some uid` when the request is authenticated (note `0` is falsy in
JavaScript, so a zero userId is also rejected). -/
def sessionUser (s : SessionData) : Option Int :=
  match s.isLoggedIn, s.userId with
  | true, some uid => if uid == 0 then none else some uid
  | _, _ => none

/-- The body of a PATCH request (`src/app/api/todos/[id]/route.ts`):
each recognized mutable field may be present with an arbitrary JSON value.
Keys outside `allowedFields` are never read by the handler and are
omitted from the model. -/
structure PatchPayload where
  title : Option JsVal := none
  description : Option JsVal := none
  priority : Option JsVal := none
  category : Option JsVal := none
  completed : Option JsVal := none
  due_date : Option JsVal := none
deriving DecidableEq, Repr

/-- Failure modes of the PATCH validation loop.  `typeError` models a
thrown `TypeError` (calling `.trim()` on a truthy non-string), which the
route's outer catch turns into a 500 response. -/
inductive FilterErr where
  | emptyTitle
  | invalidPriority
  | typeError
deriving DecidableEq, Repr

/-- The `title` step of the PATCH validation loop:
`!updates.title || updates.title.trim().length === 0` rejects with 400;
a truthy non-string throws on `.trim()`. -/
def filterTitle : Option JsVal → Except FilterErr (List (String × JsVal))
  | none => .ok []
  | some v =>
    if jsFalsy v then .error .emptyTitle
    else
      match v with
      | .str s => if jsTrim s == "" then .error .emptyTitle else .ok [("title", .str s)]
      | _ => .error .typeError

/-- The `priority` step of the PATCH validation loop:
`!['high', 'medium', 'low'].includes(updates.priority)` rejects with 400. -/
def filterPriority : Option JsVal → Except FilterErr (List (String × JsVal))
  | none => .ok []
  | some v =>
    if v == .str "high" || v == .str "medium" || v == .str "low" then .ok [("priority", v)]
    else .error .invalidPriority

/-- A field the loop copies through unchecked (`description`, `category`,
`due_date`). -/
def copyField (name : String) : Option JsVal → List (String × JsVal)
  | none => []
  | some v => [(name, v)]

/-- The `completed` step of the PATCH validation loop: a boolean value is
copied and drives the `completed_at` derivation (set on a false→true
transition, cleared to null on false, otherwise absent); a non-boolean
value is copied through raw with no derivation. -/
def filterCompleted (existingCompleted : Bool) (nowIso : String) :
    Option JsVal → List (String × JsVal)
  | none => []
  | some (.jbool b) =>
    if b && !existingCompleted then [("completed", .jbool b), ("completed_at", .str nowIso)]
    else if !b then [("completed", .jbool b), ("completed_at", .jnull)]
    else [("completed", .jbool b)]
  | some v => [("completed", v)]

/-- The whole PATCH validation loop over `allowedFields` in source order
(`title, description, priority, category, completed, due_date`), producing
the entries of `filteredUpdates`. -/
def filterUpdates (existing : Todo) (p : PatchPayload) (nowIso : String) :
    Except FilterErr (List (String × JsVal)) := do
  let ft ← filterTitle p.title
  let fp ← filterPriority p.priority
  return ft ++ copyField "description" p.description ++ fp ++
    copyField "category" p.category ++
    filterCompleted existing.completed nowIso p.completed ++
    copyField "due_date" p.due_date

/-- Outcomes of the PATCH handler, tagged with the HTTP status each
response carries in the source. -/
inductive PatchResult where
  | unauthorized
  | invalidId
  | notFound
  | forbidden
  | emptyTitle
  | invalidPriority
  | serverError
  | ok (t : Todo)
deriving DecidableEq, Repr

/-- Model of the `PATCH` handler in `src/app/api/todos/[id]/route.ts`:
session guard (401), `parseInt` of the path id (400 on NaN), load (404),
ownership check (403), payload filtering (400 / thrown→500), then
delegation to `updateTodo` (500 on null result). -/
def handlePatch (session : SessionData) (idStr : String) (p : PatchPayload)
    (store : List Todo) (now : String) : PatchResult × List Todo :=
  match sessionUser session with
  | none => (.unauthorized, store)
  | some uid =>
    match parseIntJs idStr with
    | none => (.invalidId, store)
    | some todoId =>
      match getTodoById store todoId with
      | none => (.notFound, store)
      | some existing =>
        if existing.user_id == uid then
          match filterUpdates existing p now with
          | .error .emptyTitle => (.emptyTitle, store)
          | .error .invalidPriority => (.invalidPriority, store)
          | .error .typeError => (.serverError, store)
          | .ok fu =>
            match updateTodo store todoId fu now with
            | (some t, store2) => (.ok t, store2)
            | (none, store2) => (.serverError, store2)
        else (.forbidden, store)

/-- Outcomes of the DELETE handler. -/
inductive DeleteResult where
  | unauthorized
  | invalidId
  | notFound
  | forbidden
  | serverError
  | success
deriving DecidableEq, Repr

/-- Model of the `DELETE` handler in `src/app/api/todos/[id]/route.ts`:
the same guard chain as PATCH, then delegation to `deleteTodo` (500 when
no row was removed). -/
def handleDelete (session : SessionData) (idStr : String) (store : List Todo) :
    DeleteResult × List Todo :=
  match sessionUser session with
  | none => (.unauthorized, store)
  | some uid =>
    match parseIntJs idStr with
    | none => (.invalidId, store)
    | some todoId =>
      match getTodoById store todoId with
      | none => (.notFound, store)
      | some existing =>
        if existing.user_id == uid then
          match deleteTodo store todoId with
          | (true, store2) => (.success, store2)
          | (false, store2) => (.serverError, store2)
        else (.forbidden, store)

/-- The body of a POST (create) request (`src/app/api/todos/route.ts`);
the handler destructures exactly these five keys. -/
structure CreatePayload where
  title : Option JsVal := none
  description : Option JsVal := none
  priority : Option JsVal := none
  category : Option JsVal := none
  dueDate : Option JsVal := none
deriving DecidableEq, Repr

/-- The creation path's `x?.trim() || null`: absent and `null`
short-circuit to null; a string is trimmed, with the empty result
collapsing to null; `.trim()` on any other value throws. -/
def jsTrimOrNull : Option JsVal → Except Unit (Option String)
  | none => .ok none
  | some .jnull => .ok none
  | some (.str s) => .ok (if jsTrim s == "" then none else some (jsTrim s))
  | some _ => .error ()

/-- The creation path's `dueDate || null`: falsy values collapse to null,
a string passes through opaquely.  A truthy non-string would be stored
dynamically, outside this typed row model; no verified claim depends on
that branch. -/
def dueDateOrNull : Option JsVal → Except Unit (Option String)
  | none => .ok none
  | some v =>
    if jsFalsy v then .ok none
    else
      match v with
      | .str s => .ok (some s)
      | _ => .error ()

/-- The creation path's priority coercion:
`validPriorities.includes(priority) ? priority : 'medium'`. -/
def finalPriority : Option JsVal → String
  | some (.str "high") => "high"
  | some (.str "medium") => "medium"
  | some (.str "low") => "low"
  | _ => "medium"

/-- True exactly when the raw `priority` value would pass the
`includes` membership test. -/
def isValidPriorityJs (v : Option JsVal) : Bool :=
  v == some (.str "high") || v == some (.str "medium") || v == some (.str "low")

/-- Outcomes of the POST (create) handler. -/
inductive CreateResult where
  | unauthorized
  | titleRequired
  | titleTooLong
  | serverError
  | created (t : Todo)
deriving DecidableEq, Repr

/-- Model of the `POST` handler in `src/app/api/todos/route.ts`:
session guard (401); `!title || title.trim().length === 0` → 400;
`title.length > 500` (the raw, untrimmed length) → 400; priority coerced
via `finalPriority`; `user_id` stamped from the session; delegation to
`createTodo` with the trimmed title. -/
def handleCreate (session : SessionData) (p : CreatePayload) (store : List Todo)
    (now : String) (newId : Int) : CreateResult × List Todo :=
  match sessionUser session with
  | none => (.unauthorized, store)
  | some uid =>
    match p.title with
    | none => (.titleRequired, store)
    | some tv =>
      if jsFalsy tv then (.titleRequired, store)
      else
        match tv with
        | .str s =>
          if jsTrim s == "" then (.titleRequired, store)
          else if 500 < s.length then (.titleTooLong, store)
          else
            match jsTrimOrNull p.description, jsTrimOrNull p.category,
                dueDateOrNull p.dueDate with
            | .ok d, .ok c, .ok dd =>
              let r := createTodo store newId uid (jsTrim s) d (finalPriority p.priority) c dd now
              (.created r.1, r.2)
            | _, _, _ => (.serverError, store)
        | _ => (.serverError, store)

/-
Exception-flow model of the Persistence Layer (`src/lib/db.ts`).
Each operation is modelled as a function of the outcome of its underlying
backend call: `Except.error` on the input means the backend call threw a
storage error, and `Except.error` on the output means that exception
escapes the operation uncaught.  Operations whose bodies sit in a
`try`/`catch` convert errors to their sentinel result; the others have no
handler and let the exception through.
-/
namespace DbExc

/-- Storage errors are modelled by their message. -/
abbrev DbError := String

/-- Model of `createUser`: the whole body is wrapped in `try`/`catch`
returning `null`. -/
def createUser (backend : Except DbError User) : Except DbError (Option User) :=
  match backend with
  | .ok u => .ok (some u)
  | .error _ => .ok none

/-- Model of `getUserByUsername`: the query runs with no surrounding
`try`; a thrown error escapes. -/
def getUserByUsername (backend : Except DbError (Option User)) :
    Except DbError (Option User) :=
  match backend with
  | .ok row => .ok row
  | .error e => .error e

/-- Model of `getUserById`: no surrounding `try`; a thrown error
escapes. -/
def getUserById (backend : Except DbError (Option User)) :
    Except DbError (Option User) :=
  match backend with
  | .ok row => .ok row
  | .error e => .error e

/-- Model of `createTodo`: the whole body is wrapped in `try`/`catch`
returning `null`. -/
def createTodo (backend : Except DbError Todo) : Except DbError (Option Todo) :=
  match backend with
  | .ok t => .ok (some t)
  | .error _ => .ok none

/-- Model of `getTodosByUserId`: no surrounding `try`; a thrown error
escapes. -/
def getTodosByUserId (backend : Except DbError (List Todo)) :
    Except DbError (List Todo) :=
  match backend with
  | .ok rows => .ok rows
  | .error e => .error e

/-- Model of `getTodoById`: no surrounding `try`; a thrown error
escapes. -/
def getTodoById (backend : Except DbError (Option Todo)) :
    Except DbError (Option Todo) :=
  match backend with
  | .ok row => .ok row
  | .error e => .error e

/-- Model of `updateTodo`: the whole body is wrapped in `try`/`catch`
returning `null`. -/
def updateTodo (backend : Except DbError (Option Todo)) :
    Except DbError (Option Todo) :=
  match backend with
  | .ok row => .ok row
  | .error _ => .ok none

/-- Model of `deleteTodo`: the whole body is wrapped in `try`/`catch`
returning `false`. -/
def deleteTodo (backend : Except DbError Bool) : Except DbError Bool :=
  match backend with
  | .ok b => .ok b
  | .error _ => .ok false

/-- Model of `getCompletedTodoStats`: no surrounding `try`; a thrown
error escapes. -/
def getCompletedTodoStats (backend : Except DbError TodoStats) :
    Except DbError TodoStats :=
  match backend with
  | .ok s => .ok s
  | .error e => .error e

end DbExc

/-
Concrete fixtures used by witnesses and counterexamples.
-/

def statsStore : List Todo :=
  [{ id := 1, user_id := 7, title := "wash car", description := none, priority := "medium",
     category := none, completed := true, completed_at := some "T1", due_date := none,
     created_at := "T0", updated_at := "T1" },
   { id := 2, user_id := 7, title := "buy milk", description := none, priority := "high",
     category := none, completed := false, completed_at := none, due_date := none,
     created_at := "T0", updated_at := "T0" },
   { id := 3, user_id := 7, title := "call mom", description := none, priority := "low",
     category := none, completed := false, completed_at := none, due_date := none,
     created_at := "T0", updated_at := "T0" }]

def todoA : Todo :=
  { id := 1, user_id := 1, title := "buy milk", description := none, priority := "medium",
    category := none, completed := false, completed_at := none, due_date := none,
    created_at := "T0", updated_at := "T0" }

def sessionA : SessionData := { userId := some 1, username := some "alice", isLoggedIn := true }

def sessionB : SessionData := { userId := some 2, username := some "bob", isLoggedIn := true }

def longTitle : String := String.mk (List.replicate 501 'a')

def paddedTitle : String := String.mk ( 'a' :: List.replicate 500 ' ')

def todoA1 : Todo := { todoA with title := "new milk", updated_at := "T2" }

def patchedLong : Todo := { todoA with title := longTitle, updated_at := "T1" }

def patchedA : Todo := { todoA with title := "cookies", updated_at := "T1" }

def createdHello : Todo :=
  { id := 2, user_id := 1, title := "hello", description := none, priority := "medium",
    category := none, completed := false, completed_at := none, due_date := none,
    created_at := "T0", updated_at := "T0" }

/-
Helper lemmas and the claim theorems.
-/

theorem lookup_append (k : String) (l1 l2 : List (String × JsVal)) :
    List.lookup k (l1 ++ l2) = (List.lookup k l1).or (List.lookup k l2) := by
  induction l1 with
  | nil => simp [List.lookup]
  | cons e rest ih =>
    obtain ⟨a, v⟩ := e
    simp only [List.cons_append, List.lookup]
    cases h : k == a <;> simp [h, ih]

theorem lookup_copyField_other (k name : String) (hk : k ≠ name) (v : Option JsVal) :
    List.lookup k (copyField name v) = none := by
  have hbeq : (k == name) = false := by simp [hk]
  cases v <;> simp [copyField, List.lookup, hbeq]

theorem lookup_filterTitle_other (k : String) (hk : k ≠ "title") (v : Option JsVal)
    (l : List (String × JsVal)) (h : filterTitle v = .ok l) : List.lookup k l = none := by
  have hbeq : (k == "title") = false := by simp [hk]
  match v with
  | none => cases h; rfl
  | some (.str s) =>
    by_cases hf : jsFalsy (.str s) = true
    · simp [filterTitle, hf] at h
    · by_cases ht : (jsTrim s == "") = true
      · simp [filterTitle, hf, ht] at h
      · simp [filterTitle, hf, ht] at h
        subst h
        simp [List.lookup, hbeq]
  | some (.num n) =>
    by_cases hf : jsFalsy (.num n) = true <;> simp [filterTitle, hf] at h
  | some (.jbool b) =>
    by_cases hf : jsFalsy (.jbool b) = true <;> simp [filterTitle, hf] at h
  | some .jnull => simp [filterTitle, jsFalsy] at h

theorem lookup_filterPriority_other (k : String) (hk : k ≠ "priority") (v : Option JsVal)
    (l : List (String × JsVal)) (h : filterPriority v = .ok l) : List.lookup k l = none := by
  have hbeq : (k == "priority") = false := by simp [hk]
  match v with
  | none => cases h; rfl
  | some x =>
    by_cases hv : (x == JsVal.str "high" || x == JsVal.str "medium" || x == JsVal.str "low") = true
    · simp [filterPriority, hv] at h
      subst h
      simp [List.lookup, hbeq]
    · simp [filterPriority, hv] at h

theorem filterUpdates_ok_elim (existing : Todo) (p : PatchPayload) (now : String)
    (fu : List (String × JsVal)) (hok : filterUpdates existing p now = .ok fu) :
    ∃ ft fp, filterTitle p.title = .ok ft ∧ filterPriority p.priority = .ok fp ∧
      fu = ft ++ copyField "description" p.description ++ fp ++
        copyField "category" p.category ++
        filterCompleted existing.completed now p.completed ++
        copyField "due_date" p.due_date := by
  unfold filterUpdates at hok
  cases hft : filterTitle p.title with
  | error e =>
    rw [hft] at hok
    simp only [Bind.bind, Except.bind] at hok
    simp at hok
  | ok ft =>
    rw [hft] at hok
    cases hfp : filterPriority p.priority with
    | error e =>
      rw [hfp] at hok
      simp only [Bind.bind, Except.bind] at hok
      simp at hok
    | ok fp =>
      rw [hfp] at hok
      simp only [Bind.bind, Except.bind, Pure.pure, Except.pure] at hok
      cases hok
      exact ⟨ft, fp, rfl, rfl, rfl⟩

theorem lookup_completedAt_filterUpdates (existing : Todo) (p : PatchPayload) (now : String)
    (fu : List (String × JsVal)) (hok : filterUpdates existing p now = .ok fu) :
    List.lookup "completed_at" fu =
      List.lookup "completed_at" (filterCompleted existing.completed now p.completed) := by
  obtain ⟨ft, fp, hft, hfp, rfl⟩ := filterUpdates_ok_elim existing p now fu hok
  rw [lookup_append, lookup_append, lookup_append, lookup_append, lookup_append]
  rw [lookup_filterTitle_other _ (by decide) _ _ hft,
    lookup_filterPriority_other _ (by decide) _ _ hfp,
    lookup_copyField_other _ _ (by decide), lookup_copyField_other _ _ (by decide),
    lookup_copyField_other _ _ (by decide)]
  simp

/-- Claim C1: for every update request on a todo, the derived `completed_at`
in the filtered payload follows the transition rule: payload `completed`
boolean `true` on a stored todo with `completed = false` puts the non-null
timestamp `now` under `completed_at`; payload `completed` boolean `false`
puts null there; `completed` `true` on an already-completed todo, or
`completed` absent from the payload, yields no `completed_at` entry at
all, so the stored value is left unchanged by the dynamic UPDATE. -/
theorem patch_completedAt_transition (existing : Todo) (p : PatchPayload) (now : String)
    (fu : List (String × JsVal)) (hok : filterUpdates existing p now = .ok fu) :
    (p.completed = some (.jbool true) → existing.completed = false →
        List.lookup "completed_at" fu = some (.str now)) ∧
    (p.completed = some (.jbool false) →
        List.lookup "completed_at" fu = some .jnull) ∧
    (p.completed = some (.jbool true) → existing.completed = true →
        List.lookup "completed_at" fu = none) ∧
    (p.completed = none → List.lookup "completed_at" fu = none) := by
  have h := lookup_completedAt_filterUpdates existing p now fu hok
  refine ⟨?_, ?_, ?_, ?_⟩
  · intro hc he; rw [h, hc, he]; rfl
  · intro hc; rw [h, hc]; cases existing.completed <;> rfl
  · intro hc he; rw [h, hc, he]; rfl
  · intro hc; rw [h, hc]; rfl

theorem lookup_completed_filterUpdates (existing : Todo) (p : PatchPayload) (now : String)
    (fu : List (String × JsVal)) (hok : filterUpdates existing p now = .ok fu) :
    List.lookup "completed" fu =
      List.lookup "completed" (filterCompleted existing.completed now p.completed) := by
  obtain ⟨ft, fp, hft, hfp, rfl⟩ := filterUpdates_ok_elim existing p now fu hok
  rw [lookup_append, lookup_append, lookup_append, lookup_append, lookup_append]
  rw [lookup_filterTitle_other _ (by decide) _ _ hft,
    lookup_filterPriority_other _ (by decide) _ _ hfp,
    lookup_copyField_other _ _ (by decide), lookup_copyField_other _ _ (by decide),
    lookup_copyField_other _ _ (by decide)]
  simp

theorem filterCompleted_nonBool (ec : Bool) (now : String) (v : JsVal)
    (hv : ∀ b, v ≠ .jbool b) :
    filterCompleted ec now (some v) = [("completed", v)] := by
  match v with
  | .str s => rfl
  | .num n => rfl
  | .jbool b => exact absurd rfl (hv b)
  | .jnull => rfl

/-- Claim C10: an update payload whose `completed` key holds a non-boolean
value is not rejected: the raw value is copied unchanged into the filtered
payload handed to `updateTodo`, and no `completed_at` derivation is
performed for it. -/
theorem patch_nonBool_completed_raw (existing : Todo) (now : String) (v : JsVal)
    (hv : ∀ b, v ≠ .jbool b) :
    filterUpdates existing { completed := some v } now = .ok [("completed", v)] ∧
    (∀ p fu, p.completed = some v → filterUpdates existing p now = .ok fu →
      List.lookup "completed" fu = some v ∧ List.lookup "completed_at" fu = none) := by
  constructor
  · show filterUpdates existing { completed := some v } now = _
    unfold filterUpdates
    simp only [Bind.bind, Except.bind, Pure.pure, Except.pure, filterTitle, filterPriority]
    rw [show filterCompleted existing.completed now (some v) = [("completed", v)] from
      filterCompleted_nonBool existing.completed now v hv]
    rfl
  · intro p fu hc hok
    have h1 := lookup_completed_filterUpdates existing p now fu hok
    have h2 := lookup_completedAt_filterUpdates existing p now fu hok
    rw [hc] at h1 h2
    rw [filterCompleted_nonBool existing.completed now v hv] at h1 h2
    constructor
    · rw [h1]; rfl
    · rw [h2]; rfl

theorem lookup_eq_none_keys (k : String) (l : List (String × JsVal))
    (h : ∀ e ∈ l, e.1 ≠ k) : List.lookup k l = none := by
  induction l with
  | nil => rfl
  | cons e rest ih =>
    obtain ⟨a, v⟩ := e
    have ha : a ≠ k := h (a, v) (by simp)
    have hbeq : (k == a) = false := by simp [Ne.symm ha]
    simp only [List.lookup, hbeq]
    exact ih (fun e he => h e (by simp [he]))

set_option maxHeartbeats 1000000 in
theorem applyEntries_spec (l : List (String × JsVal)) (t t2 : Todo)
    (hnd : (l.map Prod.fst).Nodup)
    (h : applyEntries t l = some t2) :
    t2.id = t.id ∧ t2.user_id = t.user_id ∧ t2.created_at = t.created_at ∧
    t2.updated_at = t.updated_at ∧
    t2.title = (match List.lookup "title" l with | some (.str s) => s | _ => t.title) ∧
    t2.description = (match List.lookup "description" l with
      | some (.str s) => some s | some .jnull => none | _ => t.description) ∧
    t2.priority = (match List.lookup "priority" l with
      | some (.str s) => s | _ => t.priority) ∧
    t2.category = (match List.lookup "category" l with
      | some (.str s) => some s | some .jnull => none | _ => t.category) ∧
    t2.completed = (match List.lookup "completed" l with
      | some (.jbool b) => b | _ => t.completed) ∧
    t2.completed_at = (match List.lookup "completed_at" l with
      | some (.str s) => some s | some .jnull => none | _ => t.completed_at) ∧
    t2.due_date = (match List.lookup "due_date" l with
      | some (.str s) => some s | some .jnull => none | _ => t.due_date) := by
  induction l generalizing t with
  | nil =>
    cases h
    simp [List.lookup]
  | cons e rest ih =>
    obtain ⟨k, v⟩ := e
    rw [applyEntries, List.foldlM_cons] at h
    cases happ : applyEntry t (k, v) with
    | none => rw [happ] at h; simp at h
    | some t1 =>
      rw [happ] at h
      simp only [Option.bind_eq_bind, Option.some_bind] at h
      rw [List.map_cons] at hnd
      have hpair := List.nodup_cons.mp hnd
      have hkn : List.lookup k rest = none := by
        apply lookup_eq_none_keys
        intro e2 he2 hek
        apply hpair.1
        have hm : e2.1 ∈ List.map Prod.fst rest := List.mem_map_of_mem Prod.fst he2
        rwa [hek] at hm
      have IH := ih t1 hpair.2 h
      unfold applyEntry at happ
      split at happ
      all_goals try exact Option.noConfusion happ
      all_goals rename_i heqp
      all_goals injection happ with h1
      all_goals subst h1
      all_goals injection heqp with hk hv
      all_goals subst hk
      all_goals try subst hv
      all_goals try clear ih
      all_goals try clear h
      all_goals try clear hnd
      all_goals try clear hpair
      all_goals simp_all [List.lookup]

/-- Claim C3: with an empty field set, `updateTodo` returns the current
record and leaves the store — hence every field, `updated_at` included —
untouched; with a non-empty field set it writes exactly the given fields
plus an automatic `updated_at` refresh, and no other field of the record.
The Nodup hypothesis encodes that the entry list is `Object.entries` of a
JavaScript object, whose keys are necessarily distinct. -/
theorem updateTodo_exact_fields (store : List Todo) (id : Int)
    (entries : List (String × JsVal)) (now : String)
    (hnd : (entries.map Prod.fst).Nodup) :
    (entries.isEmpty = true → updateTodo store id entries now = (getTodoById store id, store)) ∧
    (entries.isEmpty = false → ∀ t, getTodoById store id = some t →
      ∀ t2, (updateTodo store id entries now).1 = some t2 →
        t2.id = t.id ∧ t2.user_id = t.user_id ∧ t2.created_at = t.created_at ∧
        t2.updated_at = now ∧
        t2.title = (match List.lookup "title" entries with
          | some (.str s) => s | _ => t.title) ∧
        t2.description = (match List.lookup "description" entries with
          | some (.str s) => some s | some .jnull => none | _ => t.description) ∧
        t2.priority = (match List.lookup "priority" entries with
          | some (.str s) => s | _ => t.priority) ∧
        t2.category = (match List.lookup "category" entries with
          | some (.str s) => some s | some .jnull => none | _ => t.category) ∧
        t2.completed = (match List.lookup "completed" entries with
          | some (.jbool b) => b | _ => t.completed) ∧
        t2.completed_at = (match List.lookup "completed_at" entries with
          | some (.str s) => some s | some .jnull => none | _ => t.completed_at) ∧
        t2.due_date = (match List.lookup "due_date" entries with
          | some (.str s) => some s | some .jnull => none | _ => t.due_date)) := by
  constructor
  · intro he
    unfold updateTodo
    rw [if_pos he]
  · intro hne t ht t2 h2
    unfold updateTodo at h2
    rw [if_neg (by simp [hne]), ht] at h2
    dsimp only at h2
    cases happ : applyEntries t entries with
    | none => rw [happ] at h2; simp at h2
    | some t1 =>
      rw [happ] at h2
      dsimp only at h2
      simp only [Option.some.injEq] at h2
      subst h2
      have HS := applyEntries_spec entries t t1 hnd happ
      refine ⟨HS.1, HS.2.1, HS.2.2.1, rfl, ?_, ?_, ?_, ?_, ?_, ?_, ?_⟩
      · exact HS.2.2.2.2.1
      · exact HS.2.2.2.2.2.1
      · exact HS.2.2.2.2.2.2.1
      · exact HS.2.2.2.2.2.2.2.1
      · exact HS.2.2.2.2.2.2.2.2.1
      · exact HS.2.2.2.2.2.2.2.2.2.1
      · exact HS.2.2.2.2.2.2.2.2.2.2

/-- Claim C4: an authenticated user updating or deleting an existing todo
owned by a different user receives `forbidden` (403), and the store is
returned unchanged: no update or delete reaches the Persistence Layer. -/
theorem ownership_forbidden_unchanged (s : SessionData) (uid : Int) (idStr : String)
    (p : PatchPayload) (store : List Todo) (now : String) (tid : Int) (t : Todo)
    (hs : sessionUser s = some uid) (hid : parseIntJs idStr = some tid)
    (ht : getTodoById store tid = some t) (hown : t.user_id ≠ uid) :
    handlePatch s idStr p store now = (.forbidden, store) ∧
    handleDelete s idStr store = (.forbidden, store) := by
  have hbeq : (t.user_id == uid) = false := by simp [hown]
  constructor
  · simp [handlePatch, hs, hid, ht, hbeq]
  · simp [handleDelete, hs, hid, ht, hbeq]

/-- Claim C7: for authenticated update and delete requests the not-found
check precedes the ownership check: a nonexistent todo id yields
`not-found` (404) regardless of the session user, and `forbidden` (403)
arises only when the todo exists and its `user_id` differs from the
session's user. -/
theorem notFound_before_ownership (s : SessionData) (uid : Int) (idStr : String)
    (p : PatchPayload) (store : List Todo) (now : String) (tid : Int)
    (hs : sessionUser s = some uid) (hid : parseIntJs idStr = some tid) :
    (getTodoById store tid = none →
      handlePatch s idStr p store now = (.notFound, store) ∧
      handleDelete s idStr store = (.notFound, store)) ∧
    ((handlePatch s idStr p store now).1 = .forbidden →
      ∃ t, getTodoById store tid = some t ∧ t.user_id ≠ uid) ∧
    ((handleDelete s idStr store).1 = .forbidden →
      ∃ t, getTodoById store tid = some t ∧ t.user_id ≠ uid) := by
  refine ⟨?_, ?_, ?_⟩
  · intro hnone
    constructor
    · simp [handlePatch, hs, hid, hnone]
    · simp [handleDelete, hs, hid, hnone]
  · intro hres
    unfold handlePatch at hres
    rw [hs] at hres; dsimp only at hres
    rw [hid] at hres; dsimp only at hres
    cases hget : getTodoById store tid with
    | none => rw [hget] at hres; simp at hres
    | some t =>
      rw [hget] at hres; dsimp only at hres
      by_cases hu : (t.user_id == uid) = true
      · exfalso
        rw [if_pos hu] at hres
        split at hres <;> try simp_all
        split at hres <;> simp_all
      · refine ⟨t, rfl, ?_⟩
        simpa using hu
  · intro hres
    unfold handleDelete at hres
    rw [hs] at hres; dsimp only at hres
    rw [hid] at hres; dsimp only at hres
    cases hget : getTodoById store tid with
    | none => rw [hget] at hres; simp at hres
    | some t =>
      rw [hget] at hres; dsimp only at hres
      by_cases hu : (t.user_id == uid) = true
      · exfalso
        rw [if_pos hu] at hres
        split at hres <;> simp_all
      · refine ⟨t, rfl, ?_⟩
        simpa using hu

/-- Claim C9: for the update and delete endpoints the `invalid-id` (400)
response is produced exactly when JavaScript `parseInt` of the path
segment yields NaN; consequently `"12abc"` parses to `12`, is not
rejected, and the request behaves identically to one targeting `"12"`. -/
theorem invalidId_iff_parseInt_nan (s : SessionData) (uid : Int) (idStr : String)
    (p : PatchPayload) (store : List Todo) (now : String)
    (hs : sessionUser s = some uid) :
    ((handlePatch s idStr p store now).1 = .invalidId ↔ parseIntJs idStr = none) ∧
    ((handleDelete s idStr store).1 = .invalidId ↔ parseIntJs idStr = none) ∧
    parseIntJs "12abc" = some 12 ∧
    handlePatch s "12abc" p store now = handlePatch s "12" p store now ∧
    handleDelete s "12abc" store = handleDelete s "12" store := by
  refine ⟨⟨?_, ?_⟩, ⟨?_, ?_⟩, by decide, ?_, ?_⟩
  · intro hres
    cases hp : parseIntJs idStr with
    | none => rfl
    | some tid =>
      exfalso
      unfold handlePatch at hres
      rw [hs] at hres; dsimp only at hres
      rw [hp] at hres; dsimp only at hres
      cases hget : getTodoById store tid with
      | none => rw [hget] at hres; simp at hres
      | some t =>
        rw [hget] at hres; dsimp only at hres
        by_cases hu : (t.user_id == uid) = true
        · rw [if_pos hu] at hres
          split at hres <;> try simp_all
          split at hres <;> simp_all
        · rw [if_neg hu] at hres; simp at hres
  · intro hp
    simp [handlePatch, hs, hp]
  · intro hres
    cases hp : parseIntJs idStr with
    | none => rfl
    | some tid =>
      exfalso
      unfold handleDelete at hres
      rw [hs] at hres; dsimp only at hres
      rw [hp] at hres; dsimp only at hres
      cases hget : getTodoById store tid with
      | none => rw [hget] at hres; simp at hres
      | some t =>
        rw [hget] at hres; dsimp only at hres
        by_cases hu : (t.user_id == uid) = true
        · rw [if_pos hu] at hres
          split at hres <;> simp_all
        · rw [if_neg hu] at hres; simp at hres
  · intro hp
    simp [handleDelete, hs, hp]
  · unfold handlePatch
    rw [hs]; dsimp only
    rw [show parseIntJs "12abc" = some 12 by decide,
      show parseIntJs "12" = some 12 by decide]
  · unfold handleDelete
    rw [hs]; dsimp only
    rw [show parseIntJs "12abc" = some 12 by decide,
      show parseIntJs "12" = some 12 by decide]

theorem dropWhile_cons_not (p : Char → Bool) (l : List Char) (a : Char) (as : List Char)
    (h : l.dropWhile p = a :: as) : p a = false := by
  induction l with
  | nil => cases h
  | cons c cs ih =>
    rw [List.dropWhile_cons] at h
    by_cases hc : p c = true
    · rw [if_pos hc] at h; exact ih h
    · rw [if_neg hc] at h
      cases h
      simpa using hc

theorem length_dropWhile_le_self (p : Char → Bool) (l : List Char) :
    (l.dropWhile p).length ≤ l.length := by
  induction l with
  | nil => simp
  | cons x xs ih =>
    rw [List.dropWhile_cons]
    by_cases hx : p x = true
    · rw [if_pos hx]
      exact Nat.le_trans ih (Nat.le_succ _)
    · rw [if_neg hx]

theorem jsTrim_length_le (s : String) : (jsTrim s).length ≤ s.length := by
  unfold jsTrim
  show (((s.data.dropWhile isJsWs).reverse.dropWhile isJsWs).reverse).length ≤ s.data.length
  rw [List.length_reverse]
  calc ((s.data.dropWhile isJsWs).reverse.dropWhile isJsWs).length
      ≤ (s.data.dropWhile isJsWs).reverse.length := length_dropWhile_le_self _ _
    _ = (s.data.dropWhile isJsWs).length := List.length_reverse _
    _ ≤ s.data.length := length_dropWhile_le_self _ _

theorem mem_dropWhile_of_not (p : Char → Bool) (l : List Char) (c : Char)
    (hc : c ∈ l) (hp : p c = false) : c ∈ l.dropWhile p := by
  induction l with
  | nil => cases hc
  | cons x xs ih =>
    rw [List.dropWhile_cons]
    by_cases hx : p x = true
    · rw [if_pos hx]
      rcases List.mem_cons.mp hc with rfl | hmem
      · rw [hp] at hx; cases hx
      · exact ih hmem
    · rw [if_neg hx]
      exact hc

theorem jsTrim_jsTrim_ne_empty (s : String) (h : jsTrim s ≠ "") :
    jsTrim (jsTrim s) ≠ "" := by
  have hex : ∃ c ∈ (jsTrim s).data, isJsWs c = false := by
    rcases hd : ((s.data.dropWhile isJsWs).reverse.dropWhile isJsWs) with _ | ⟨a, as⟩
    · exfalso
      apply h
      unfold jsTrim
      rw [hd]
      rfl
    · refine ⟨a, ?_, dropWhile_cons_not _ _ _ _ hd⟩
      show a ∈ (((s.data.dropWhile isJsWs).reverse.dropWhile isJsWs).reverse)
      rw [hd]
      simp
  obtain ⟨c, hc, hcf⟩ := hex
  intro hcontra
  have hdata : (((jsTrim s).data.dropWhile isJsWs).reverse.dropWhile isJsWs).reverse = [] := by
    have h2 := congrArg String.data hcontra
    exact h2
  rw [List.reverse_eq_nil_iff, List.dropWhile_eq_nil_iff] at hdata
  have h3 : isJsWs c = true := by
    apply hdata
    rw [List.mem_reverse]
    exact mem_dropWhile_of_not _ _ _ hc hcf
  rw [hcf] at h3
  cases h3

theorem mem_filterTitle_ok (v : Option JsVal) (l : List (String × JsVal))
    (hok : filterTitle v = .ok l) (e : String × JsVal) (h : e ∈ l) :
    ∃ s, e = ("title", .str s) ∧ jsTrim s ≠ "" := by
  match v with
  | none => cases hok; cases h
  | some (.str s) =>
    by_cases hf : jsFalsy (.str s) = true
    · simp [filterTitle, hf] at hok
    · by_cases ht : (jsTrim s == "") = true
      · simp [filterTitle, hf, ht] at hok
      · simp [filterTitle, hf, ht] at hok
        subst hok
        rcases List.mem_singleton.mp h with rfl
        exact ⟨s, rfl, by simpa using ht⟩
  | some (.num n) =>
    by_cases hf : jsFalsy (.num n) = true <;> simp [filterTitle, hf] at hok
  | some (.jbool b) =>
    by_cases hf : jsFalsy (.jbool b) = true <;> simp [filterTitle, hf] at hok
  | some .jnull => simp [filterTitle, jsFalsy] at hok

theorem mem_filterPriority_ok (v : Option JsVal) (l : List (String × JsVal))
    (hok : filterPriority v = .ok l) (e : String × JsVal) (h : e ∈ l) :
    e.1 = "priority" := by
  match v with
  | none => cases hok; cases h
  | some x =>
    by_cases hv : (x == JsVal.str "high" || x == JsVal.str "medium" || x == JsVal.str "low") = true
    · simp [filterPriority, hv] at hok
      subst hok
      rcases List.mem_singleton.mp h with rfl
      rfl
    · simp [filterPriority, hv] at hok

theorem mem_copyField (name : String) (v : Option JsVal) (e : String × JsVal)
    (h : e ∈ copyField name v) : e.1 = name := by
  cases v with
  | none => cases h
  | some x =>
    rcases List.mem_singleton.mp h with rfl
    rfl

theorem mem_filterCompleted (ec : Bool) (now : String) (v : Option JsVal)
    (e : String × JsVal) (h : e ∈ filterCompleted ec now v) :
    e.1 = "completed" ∨ e.1 = "completed_at" := by
  match v with
  | none => cases h
  | some (.jbool b) =>
    have hred : filterCompleted ec now (some (.jbool b)) =
        if b && !ec then [("completed", JsVal.jbool b), ("completed_at", JsVal.str now)]
        else if !b then [("completed", JsVal.jbool b), ("completed_at", JsVal.jnull)]
        else [("completed", JsVal.jbool b)] := rfl
    rw [hred] at h
    split at h
    · simp at h
      rcases h with rfl | rfl
      · exact Or.inl rfl
      · exact Or.inr rfl
    · split at h
      · simp at h
        rcases h with rfl | rfl
        · exact Or.inl rfl
        · exact Or.inr rfl
      · simp at h
        subst h
        exact Or.inl rfl
  | some (.str s) => rcases List.mem_singleton.mp h with rfl; exact Or.inl rfl
  | some (.num n) => rcases List.mem_singleton.mp h with rfl; exact Or.inl rfl
  | some .jnull => rcases List.mem_singleton.mp h with rfl; exact Or.inl rfl

theorem filterUpdates_title_entries (existing : Todo) (p : PatchPayload) (now : String)
    (fu : List (String × JsVal)) (hok : filterUpdates existing p now = .ok fu)
    (v : JsVal) (hmem : ("title", v) ∈ fu) : ∃ s, v = .str s ∧ jsTrim s ≠ "" := by
  obtain ⟨ft, fp, hft, hfp, rfl⟩ := filterUpdates_ok_elim existing p now fu hok
  rcases List.mem_append.mp hmem with h5 | h6
  · rcases List.mem_append.mp h5 with h4 | hcmp
    · rcases List.mem_append.mp h4 with h3 | hcat
      · rcases List.mem_append.mp h3 with h2 | hpri
        · rcases List.mem_append.mp h2 with h1 | hdesc
          · obtain ⟨s, he, hs⟩ := mem_filterTitle_ok p.title ft hft _ h1
            injection he with he1 he2
            exact ⟨s, he2, hs⟩
          · have h7 : ("title" : String) = "description" := mem_copyField _ _ _ hdesc
            exact absurd h7 (by decide)
        · have h7 : ("title" : String) = "priority" :=
            mem_filterPriority_ok p.priority fp hfp _ hpri
          exact absurd h7 (by decide)
      · have h7 : ("title" : String) = "category" := mem_copyField _ _ _ hcat
        exact absurd h7 (by decide)
    · have h7 : ("title" : String) = "completed" ∨ ("title" : String) = "completed_at" :=
        mem_filterCompleted _ _ _ _ hcmp
      rcases h7 with h7 | h7 <;> exact absurd h7 (by decide)
  · have h7 : ("title" : String) = "due_date" := mem_copyField _ _ _ h6
    exact absurd h7 (by decide)

theorem applyEntry_preserves_title (t tm : Todo) (k : String) (w : JsVal)
    (hk : k ≠ "title") (h : applyEntry t (k, w) = some tm) : tm.title = t.title := by
  unfold applyEntry at h
  split at h
  all_goals try exact Option.noConfusion h
  all_goals rename_i heqp
  all_goals injection h with h1
  all_goals subst h1
  all_goals injection heqp with hka hv
  all_goals first
    | (exact absurd hka hk)
    | rfl

theorem applyEntries_title_nonempty (l : List (String × JsVal)) (t t1 : Todo)
    (h : applyEntries t l = some t1)
    (hl : ∀ v, ("title", v) ∈ l → ∃ s, v = .str s ∧ jsTrim s ≠ "")
    (ht : jsTrim t.title ≠ "") : jsTrim t1.title ≠ "" := by
  induction l generalizing t with
  | nil => cases h; exact ht
  | cons e rest ih =>
    obtain ⟨k, w⟩ := e
    rw [applyEntries, List.foldlM_cons] at h
    cases happ : applyEntry t (k, w) with
    | none => rw [happ] at h; simp at h
    | some tm =>
      rw [happ] at h
      simp only [Option.bind_eq_bind, Option.some_bind] at h
      have hrest : ∀ v, ("title", v) ∈ rest → ∃ s, v = .str s ∧ jsTrim s ≠ "" :=
        fun v hv => hl v (List.mem_cons_of_mem _ hv)
      by_cases hk : k = "title"
      · subst hk
        obtain ⟨s, rfl, hs⟩ := hl w (List.mem_cons_self _ _)
        rw [show applyEntry t ("title", JsVal.str s) = some { t with title := s } from rfl]
          at happ
        injection happ with h1
        subst h1
        exact ih _ h hrest (by simpa using hs)
      · have := applyEntry_preserves_title t tm k w hk happ
        exact ih tm h hrest (this ▸ ht)

theorem updateTodo_title_preserve (store : List Todo) (tid : Int)
    (fu : List (String × JsVal)) (now : String)
    (hfu : ∀ v, ("title", v) ∈ fu → ∃ s0, v = .str s0 ∧ jsTrim s0 ≠ "")
    (hinv : ∀ x ∈ store, jsTrim x.title ≠ "") :
    ∀ x ∈ (updateTodo store tid fu now).2, jsTrim x.title ≠ "" := by
  unfold updateTodo
  by_cases he : fu.isEmpty = true
  · rw [if_pos he]; exact hinv
  · rw [if_neg he]
    cases hg : getTodoById store tid with
    | none => exact hinv
    | some t =>
      dsimp only
      cases happ : applyEntries t fu with
      | none => exact hinv
      | some t1 =>
        dsimp only
        intro x hx
        rcases List.mem_map.mp hx with ⟨y, hy, rfl⟩
        by_cases hid : (y.id == tid) = true
        · rw [if_pos hid]
          have ht : jsTrim t.title ≠ "" := hinv t (List.mem_of_find?_eq_some hg)
          have h1 : jsTrim t1.title ≠ "" :=
            applyEntries_title_nonempty fu t t1 happ hfu ht
          simpa using h1
        · rw [if_neg hid]
          exact hinv y hy

/-- Claim C5 (amended): every stored todo reachable through the public
operations has a title that is non-empty after trimming; todos stored by
the creation path additionally have titles of at most 500 characters, but
the update path does not enforce the length bound (see the
counterexample), so only the non-emptiness half is a store invariant. -/
theorem stored_title_invariants (s : SessionData) (store : List Todo) (now : String) :
    (∀ p newId r store2, handleCreate s p store now newId = (.created r, store2) →
      jsTrim r.title ≠ "" ∧ r.title.length ≤ 500 ∧ store2 = store ++ [r]) ∧
    (∀ idStr p res store2, handlePatch s idStr p store now = (res, store2) →
      (∀ x ∈ store, jsTrim x.title ≠ "") → ∀ x ∈ store2, jsTrim x.title ≠ "") := by
  constructor
  · intro p newId r store2 hres
    unfold handleCreate at hres
    cases hsu : sessionUser s with
    | none => rw [hsu] at hres; simp at hres
    | some uid =>
      rw [hsu] at hres; dsimp only at hres
      cases hto : p.title with
      | none => rw [hto] at hres; simp at hres
      | some tv =>
        rw [hto] at hres; dsimp only at hres
        by_cases hfal : jsFalsy tv = true
        · rw [if_pos hfal] at hres; simp at hres
        · rw [if_neg hfal] at hres
          cases tv with
          | str s0 =>
            dsimp only at hres
            by_cases htr : (jsTrim s0 == "") = true
            · rw [if_pos htr] at hres; simp at hres
            · rw [if_neg htr] at hres
              by_cases hlen : 500 < s0.length
              · rw [if_pos hlen] at hres; simp at hres
              · rw [if_neg hlen] at hres
                split at hres
                · dsimp only [createTodo] at hres
                  injection hres with h1 h2
                  injection h1 with h1
                  subst h1
                  subst h2
                  refine ⟨?_, ?_, rfl⟩
                  · exact jsTrim_jsTrim_ne_empty s0 (by simpa using htr)
                  · exact Nat.le_trans (jsTrim_length_le s0) (Nat.not_lt.mp hlen)
                · simp at hres
          | num n => simp at hres
          | jbool b => simp at hres
          | jnull => simp [jsFalsy] at hfal
  · intro idStr p res store2 hres hinv
    unfold handlePatch at hres
    cases hsu : sessionUser s with
    | none =>
      rw [hsu] at hres
      injection hres with h1 h2
      subst h2
      exact hinv
    | some uid =>
      rw [hsu] at hres; dsimp only at hres
      cases hp : parseIntJs idStr with
      | none =>
        rw [hp] at hres
        injection hres with h1 h2
        subst h2
        exact hinv
      | some tid =>
        rw [hp] at hres; dsimp only at hres
        cases hg : getTodoById store tid with
        | none =>
          rw [hg] at hres
          injection hres with h1 h2
          subst h2
          exact hinv
        | some t =>
          rw [hg] at hres; dsimp only at hres
          by_cases hu : (t.user_id == uid) = true
          · rw [if_pos hu] at hres
            cases hfu : filterUpdates t p now with
            | error e =>
              rw [hfu] at hres
              cases e <;>
                (dsimp only at hres
                 injection hres with h1 h2
                 subst h2
                 exact hinv)
            | ok fu =>
              rw [hfu] at hres; dsimp only at hres
              have hpres := updateTodo_title_preserve store tid fu now
                (fun v hv => filterUpdates_title_entries t p now fu hfu v hv) hinv
              rcases hu2 : updateTodo store tid fu now with ⟨o, st2⟩
              rw [hu2] at hres hpres
              cases o with
              | some tnew =>
                dsimp only at hres hpres
                injection hres with h1 h2
                subst h2
                exact hpres
              | none =>
                dsimp only at hres hpres
                injection hres with h1 h2
                subst h2
                exact hpres
          · rw [if_neg hu] at hres
            injection hres with h1 h2
            subst h2
            exact hinv

theorem jsRound_of_counts (c t : ℕ) (ht : 0 < t) :
    jsRound ((c : ℚ) / (t : ℚ) * 100) = (((200 * c + t) / (2 * t) : ℕ) : ℤ) := by
  unfold jsRound
  have ht2 : (t : ℚ) ≠ 0 := by positivity
  have h1 : (c : ℚ) / (t : ℚ) * 100 + 1 / 2 = ((200 * c + t : ℕ) : ℚ) / ((2 * t : ℕ) : ℚ) := by
    push_cast
    field_simp
    ring
  rw [h1, ← Int.natCast_floor_eq_floor (by positivity), Nat.floor_div_nat, Nat.floor_natCast]



/-- Claim C6: `getCompletedTodoStats` returns the user's todo count and
completed count, with `completionRate = round(100 * completed / total)`
when `total > 0` and `0` when `total = 0`; a user with zero todos yields
`{0, 0, 0}` and a user with 3 todos, 1 completed, yields `{3, 1, 33}`. -/
theorem stats_completionRate_spec (store : List Todo) (uid : Int) :
    (store.filter (fun t => t.user_id == uid) = [] →
      getCompletedTodoStats store uid = ⟨0, 0, 0⟩) ∧
    (0 < (getCompletedTodoStats store uid).total →
      (getCompletedTodoStats store uid).completionRate =
        jsRound (((getCompletedTodoStats store uid).completed : ℚ) /
          ((getCompletedTodoStats store uid).total : ℚ) * 100)) ∧
    getCompletedTodoStats [] 5 = ⟨0, 0, 0⟩ ∧
    getCompletedTodoStats statsStore 7 = ⟨3, 1, 33⟩ := by
  refine ⟨?_, ?_, ?_, ?_⟩
  · intro h
    unfold getCompletedTodoStats
    rw [h]
    rfl
  · intro hpos
    unfold getCompletedTodoStats at hpos ⊢
    dsimp only at hpos ⊢
    rw [if_pos hpos]
  · rfl
  · have h1 : getCompletedTodoStats statsStore 7 =
        { total := 3, completed := 1,
          completionRate := jsRound (((1 : ℕ) : ℚ) / ((3 : ℕ) : ℚ) * 100) } := rfl
    rw [h1, jsRound_of_counts 1 3 (by norm_num)]
    decide

theorem finalPriority_medium (v : Option JsVal) (h : isValidPriorityJs v = false) :
    finalPriority v = "medium" := by
  unfold finalPriority
  split
  · simp [isValidPriorityJs] at h
  · simp [isValidPriorityJs] at h
  · simp [isValidPriorityJs] at h
  · rfl

/-- Claim C8 (amended): creation rejects with 400 a title that is absent,
falsy, or empty after trimming, and also — this is where the original
claim needed amending — any title whose RAW (untrimmed) length exceeds
500, since the source checks `title.length` before trimming; otherwise
the priority is coerced to `medium` whenever absent or invalid (never an
error) and the created todo's `user_id` is stamped from the session,
never from the client payload. -/
theorem create_validation_contract (s : SessionData) (uid : Int) (p : CreatePayload)
    (store : List Todo) (now : String) (newId : Int) (hs : sessionUser s = some uid) :
    (p.title = none → handleCreate s p store now newId = (.titleRequired, store)) ∧
    (∀ v, p.title = some v → jsFalsy v = true →
      handleCreate s p store now newId = (.titleRequired, store)) ∧
    (∀ s0, p.title = some (.str s0) → jsTrim s0 = "" →
      handleCreate s p store now newId = (.titleRequired, store)) ∧
    (∀ s0, p.title = some (.str s0) → jsTrim s0 ≠ "" → 500 < s0.length →
      handleCreate s p store now newId = (.titleTooLong, store)) ∧
    (∀ s0 d c dd, p.title = some (.str s0) → jsTrim s0 ≠ "" → s0.length ≤ 500 →
      jsTrimOrNull p.description = .ok d → jsTrimOrNull p.category = .ok c →
      dueDateOrNull p.dueDate = .ok dd →
      ∃ r, handleCreate s p store now newId = (.created r, store ++ [r]) ∧
        r.user_id = uid ∧ r.title = jsTrim s0 ∧ r.priority = finalPriority p.priority ∧
        (isValidPriorityJs p.priority = false → r.priority = "medium")) := by
  refine ⟨?_, ?_, ?_, ?_, ?_⟩
  · intro hto
    simp [handleCreate, hs, hto]
  · intro v hto hfal
    unfold handleCreate
    rw [hs]; dsimp only
    rw [hto]; dsimp only
    rw [if_pos hfal]
  · intro s0 hto htr
    unfold handleCreate
    rw [hs]; dsimp only
    rw [hto]; try dsimp only
    by_cases hfal : jsFalsy (JsVal.str s0) = true
    · rw [if_pos hfal]
    · rw [if_neg hfal]
      try dsimp only
      rw [if_pos (by simpa using htr)]
  · intro s0 hto htr hlen
    unfold handleCreate
    rw [hs]; dsimp only
    rw [hto]; try dsimp only
    have hfal : jsFalsy (JsVal.str s0) = false := by
      simp [jsFalsy]
      intro hc
      exact htr (by rw [hc]; rfl)
    rw [if_neg (by simp [hfal])]
    try dsimp only
    rw [if_neg (by simpa using htr), if_pos hlen]
  · intro s0 d c dd hto htr hlen hd hc hdd
    unfold handleCreate
    rw [hs]; dsimp only
    rw [hto]; try dsimp only
    have hfal : jsFalsy (JsVal.str s0) = false := by
      simp [jsFalsy]
      intro hcon
      exact htr (by rw [hcon]; rfl)
    rw [if_neg (by simp [hfal])]
    try dsimp only
    rw [if_neg (by simpa using htr), if_neg (by omega)]
    rw [hd, hc, hdd]
    dsimp only [createTodo]
    exact ⟨_, rfl, rfl, rfl, rfl, fun hv => finalPriority_medium p.priority hv⟩

/-- Claim C2 counterexample: a storage error thrown inside
`getTodosByUserId` is not caught there — the operation has no
`try`/`catch` — so the exception propagates past the Persistence Layer
instead of becoming the sentinel empty list. -/
theorem dbExc_read_propagates :
    DbExc.getTodosByUserId (Except.error "connection refused") =
      Except.error "connection refused" ∧
    DbExc.getTodosByUserId (Except.error "connection refused") ≠ Except.ok [] :=
  ⟨rfl, fun h => Except.noConfusion h⟩

/-- Claim C2 (amended): only the four mutating operations (`createUser`,
`createTodo`, `updateTodo`, `deleteTodo`) catch storage errors and convert
them to sentinel results (null / false); the five read operations
(`getUserByUsername`, `getUserById`, `getTodosByUserId`, `getTodoById`,
`getCompletedTodoStats`) have no handler and let the exception escape the
layer. -/
theorem dbExc_error_policy :
    (∀ e : DbExc.DbError, DbExc.createUser (Except.error e) = Except.ok none) ∧
    (∀ e : DbExc.DbError, DbExc.createTodo (Except.error e) = Except.ok none) ∧
    (∀ e : DbExc.DbError, DbExc.updateTodo (Except.error e) = Except.ok none) ∧
    (∀ e : DbExc.DbError, DbExc.deleteTodo (Except.error e) = Except.ok false) ∧
    (∀ e : DbExc.DbError, DbExc.getUserByUsername (Except.error e) = Except.error e) ∧
    (∀ e : DbExc.DbError, DbExc.getUserById (Except.error e) = Except.error e) ∧
    (∀ e : DbExc.DbError, DbExc.getTodosByUserId (Except.error e) = Except.error e) ∧
    (∀ e : DbExc.DbError, DbExc.getTodoById (Except.error e) = Except.error e) ∧
    (∀ e : DbExc.DbError, DbExc.getCompletedTodoStats (Except.error e) = Except.error e) :=
  ⟨fun _ => rfl, fun _ => rfl, fun _ => rfl, fun _ => rfl, fun _ => rfl,
   fun _ => rfl, fun _ => rfl, fun _ => rfl, fun _ => rfl⟩



















theorem patch_completedAt_transition_witness :
    List.lookup "completed_at"
      [("completed", JsVal.jbool true), ("completed_at", JsVal.str "T1")] =
      some (JsVal.str "T1") :=
  (patch_completedAt_transition todoA { completed := some (.jbool true) } "T1"
    [("completed", JsVal.jbool true), ("completed_at", JsVal.str "T1")] rfl).1 rfl rfl

theorem updateTodo_exact_fields_witness :
    updateTodo [todoA] 1 [] "T2" = (getTodoById [todoA] 1, [todoA]) ∧
    todoA1.updated_at = "T2" ∧ todoA1.user_id = todoA.user_id := by
  constructor
  · exact (updateTodo_exact_fields [todoA] 1 [] "T2" (by decide)).1 rfl
  · have H := (updateTodo_exact_fields [todoA] 1 [("title", JsVal.str "new milk")] "T2"
      (by decide)).2 rfl todoA rfl todoA1 rfl
    exact ⟨H.2.2.2.1, H.2.1⟩

theorem ownership_forbidden_unchanged_witness :
    handlePatch sessionB "1" {} [todoA] "T1" = (.forbidden, [todoA]) ∧
    handleDelete sessionB "1" [todoA] = (.forbidden, [todoA]) :=
  ownership_forbidden_unchanged sessionB 2 "1" {} [todoA] "T1" 1 todoA rfl (by decide) rfl
    (by decide)

set_option maxRecDepth 100000 in
/-- Claim C5 counterexample: a PATCH whose title is 501 characters long
succeeds and stores that title, violating the 500-character bound the
claim asserts for every stored todo. -/
theorem patch_title_length_unbounded :
    handlePatch sessionA "1" { title := some (.str longTitle) } [todoA] "T1" =
      (.ok patchedLong, [patchedLong]) ∧
    500 < patchedLong.title.length ∧ jsTrim patchedLong.title ≠ "" := by
  refine ⟨by decide, by decide, by decide⟩

theorem stored_title_invariants_witness :
    (jsTrim createdHello.title ≠ "" ∧ createdHello.title.length ≤ 500 ∧
      ([createdHello] : List Todo) = [] ++ [createdHello]) ∧
    jsTrim patchedA.title ≠ "" := by
  constructor
  · exact (stored_title_invariants sessionA [] "T0").1 { title := some (.str "hello") } 2
      createdHello [createdHello] (by decide)
  · exact (stored_title_invariants sessionA [todoA] "T1").2 "1"
      { title := some (.str "cookies") } (.ok patchedA) [patchedA] (by decide)
      (by decide) patchedA (by simp)

theorem stats_completionRate_spec_witness :
    getCompletedTodoStats [] 5 = ⟨0, 0, 0⟩ ∧
    (getCompletedTodoStats statsStore 7).completionRate =
      jsRound (((getCompletedTodoStats statsStore 7).completed : ℚ) /
        ((getCompletedTodoStats statsStore 7).total : ℚ) * 100) :=
  ⟨(stats_completionRate_spec [] 5).1 rfl,
   (stats_completionRate_spec statsStore 7).2.1 (by decide)⟩

theorem notFound_before_ownership_witness :
    handlePatch sessionA "5" {} [todoA] "T1" = (.notFound, [todoA]) ∧
    handleDelete sessionA "5" [todoA] = (.notFound, [todoA]) :=
  (notFound_before_ownership sessionA 1 "5" {} [todoA] "T1" 5 rfl (by decide)).1 rfl

set_option maxRecDepth 100000 in
/-- Claim C8 counterexample: a creation request whose title trims to the
valid one-character title but whose raw length is 501 is rejected with
the length error, where the claim as stated promises creation. -/
theorem create_title_checks_raw_length :
    handleCreate sessionA { title := some (.str paddedTitle) } [] "T0" 3 =
      (.titleTooLong, []) ∧
    jsTrim paddedTitle = "a" ∧ (jsTrim paddedTitle).length ≤ 500 ∧
    jsTrim paddedTitle ≠ "" := by
  refine ⟨by decide, by decide, by decide, by decide⟩

set_option maxRecDepth 100000 in
theorem create_validation_contract_witness :
    handleCreate sessionA {} [] "T0" 3 = (.titleRequired, []) ∧
    handleCreate sessionA { title := some (.str longTitle) } [] "T0" 3 =
      (.titleTooLong, []) :=
  ⟨(create_validation_contract sessionA 1 {} [] "T0" 3 rfl).1 rfl,
   (create_validation_contract sessionA 1 { title := some (.str longTitle) } [] "T0" 3
      rfl).2.2.2.1 longTitle rfl (by decide) (by decide)⟩

theorem invalidId_iff_parseInt_nan_witness :
    parseIntJs "12abc" = some 12 ∧
    handlePatch sessionA "12abc" {} [] "T1" = handlePatch sessionA "12" {} [] "T1" ∧
    ((handlePatch sessionA "abc" {} [] "T1").1 = .invalidId ↔ parseIntJs "abc" = none) :=
  ⟨(invalidId_iff_parseInt_nan sessionA 1 "12abc" {} [] "T1" rfl).2.2.1,
   (invalidId_iff_parseInt_nan sessionA 1 "12abc" {} [] "T1" rfl).2.2.2.1,
   (invalidId_iff_parseInt_nan sessionA 1 "abc" {} [] "T1" rfl).1⟩

theorem patch_nonBool_completed_raw_witness :
    filterUpdates todoA { completed := some (.str "yes") } "T1" =
      .ok [("completed", JsVal.str "yes")] :=
  (patch_nonBool_completed_raw todoA "T1" (.str "yes") (by decide)).1

end DoneIt
